import Mathlib

/-!
Verification of `dev-tools/build_release.py`, the release-orchestration
script of this repository.  The script's pure helpers (version-string
parsing, snapshot guessing, documentation-anchor formatting, release-branch
naming, line-rewriting of files, email dispatch) are embedded directly as
Lean functions over `List Char`; the orchestration in `__main__` is embedded
as a state-passing execution over an explicit git-repository state, with the
outcomes of external commands (maven, `git pull --rebase`, the issue
tracker, the build) supplied by an oracle record.  Strings are `List Char`
so that character-level operations (digit runs, `str.replace`) are
structural and kernel-computable.
-/

namespace BuildRelease

/-- Strings of the script, as lists of characters. -/
abbrev Str := List Char

/-! ## Version utilities (lines 199-217 of build_release.py) -/

/-- Core of `re.findall(r'\d+', s)`: returns the maximal runs of digit
characters of `s` in order, together with whether `s` itself starts with a
digit (used to decide whether a digit extends the first run). -/
def splitRunsCore : Str → List Str × Bool
  | [] => ([], false)
  | c :: cs =>
    let r := splitRunsCore cs
    if c.isDigit then
      if r.2 then
        match r.1 with
        | run :: rs => ((c :: run) :: rs, true)
        | [] => ([[c]], true)
      else ([c] :: r.1, true)
    else (r.1, false)

/-- `re.findall(r'\d+', s)`: the maximal digit runs of `s`, in order. -/
def splitRuns (s : Str) : List Str := (splitRunsCore s).1

/-- The numeric value of a digit character, as `int()` reads it. -/
def digitVal (c : Char) : Nat := c.toNat - 48

/-- Python `int()` of a string of digit characters. -/
def digitsToNat (s : Str) : Nat := s.foldl (fun a c => 10 * a + digitVal c) 0

/-- `split_version_to_digits` (line 199): all digit runs of the version
string, each converted to an integer, in order.  Total: `re.findall` and
`int` on digit runs never raise. -/
def split_version_to_digits (version : Str) : List Nat :=
  (splitRuns version).map digitsToNat

/-- Fuel-driven decimal rendering, mirroring Python `str()` of a
non-negative int (and `Nat.toDigitsCore`): peels the last digit each step.
The fuel only bounds recursion; any fuel above the number is enough. -/
def natToCharsAux : Nat → Nat → Str → Str
  | 0, _, acc => acc
  | fuel + 1, n, acc =>
    if n < 10 then Nat.digitChar n :: acc
    else natToCharsAux fuel (n / 10) (Nat.digitChar (n % 10) :: acc)

/-- Python `'%s' % n` for a non-negative int `n`: its decimal rendering. -/
def natToChars (n : Nat) : Str := natToCharsAux (n + 1) n []

/-- One step of Python `str.replace` with a non-empty pattern `p :: ps`:
scan left to right, on a match emit `rep` and skip past the match, else
keep the character.  Fuel-driven (fuel `≥` the length of the string is
enough) so the function is structural and kernel-computable. -/
def replaceAuxF (p : Char) (ps rep : Str) : Nat → Str → Str
  | _, [] => []
  | 0, s => s
  | fuel + 1, c :: cs =>
    if (p :: ps).isPrefixOf (c :: cs) then
      rep ++ replaceAuxF p ps rep fuel (cs.drop ps.length)
    else c :: replaceAuxF p ps rep fuel cs

/-- Python `s.replace(pat, rep)`: every non-overlapping occurrence of
`pat`, found left to right, is replaced by `rep`.  The empty pattern
matches between all characters, as in Python. -/
def pyReplace (s pat rep : Str) : Str :=
  match pat with
  | [] => rep ++ (s.map (fun c => c :: rep)).flatten
  | p :: ps => replaceAuxF p ps rep s.length s

/-- `guess_snapshot` (lines 204-208): render the first three extracted
digits as `x.y.z`, and replace that substring of the version by
`x.y.(z+1)`.  Python indexes `digits[0..2]` and raises `IndexError` when
fewer than three digit runs exist: that case is `none`. -/
def guess_snapshot (version : Str) : Option Str :=
  match split_version_to_digits version with
  | d0 :: d1 :: d2 :: _ =>
    some (pyReplace version
      (natToChars d0 ++ '.' :: natToChars d1 ++ '.' :: natToChars d2)
      (natToChars d0 ++ '.' :: natToChars d1 ++ '.' :: natToChars (d2 + 1)))
  | _ => none

/-- `get_doc_anchor` (lines 213-217): concatenate the three digit
components of the release and the first two of the dependency version into
the fixed slug format.  Python indexes three and two digit runs and raises
`IndexError` when they are missing: that case is `none`. -/
def get_doc_anchor (release esversion : Str) : Option Str :=
  match split_version_to_digits release, split_version_to_digits esversion with
  | p0 :: p1 :: p2 :: _, e0 :: e1 :: _ =>
    some ("#version-".data ++ natToChars p0 ++ natToChars p1 ++ natToChars p2
      ++ "-for-elasticsearch-".data ++ natToChars e0 ++ natToChars e1)
  | _, _ => none

/-- `release_branch` (lines 168-169): `'release_branch_%s_%s' % (b, v)`. -/
def release_branch (branchsource version : Str) : Str :=
  "release_branch_".data ++ branchsource ++ '_' :: version

/-- The canonical `x.y.z` rendering of a version triple, as the script
composes it from extracted digits. -/
def verStr (x y z : Nat) : Str :=
  natToChars x ++ '.' :: natToChars y ++ '.' :: natToChars z

/-- The canonical `x.y` rendering of a two-component dependency version. -/
def esStr (x y : Nat) : Str := natToChars x ++ '.' :: natToChars y

/-- Does `pat` occur as a contiguous substring of `s` (Python `pat in s`)? -/
def occursIn (pat : Str) : Str → Bool
  | [] => pat.isEmpty
  | c :: cs => pat.isPrefixOf (c :: cs) || occursIn pat cs

/-- `s` is empty or starts with a non-digit character. -/
def HeadNotDigit (s : Str) : Prop := ∀ c ∈ s.head?, c.isDigit = false

/-! ## File Patcher: `process_file` (lines 176-195)

A file is its list of lines (each line keeps its terminator, as Python's
line iteration yields it).  The script writes `line_callback line` for every
line to a temporary file, recording whether any line changed, and replaces
the original with the temporary only when one did. -/

/-- The loop body of `process_file`: the rewritten lines in order, and the
accumulated `modified` flag. -/
def processLines (cb : Str → Str) : List Str → Bool × List Str
  | [] => (false, [])
  | l :: ls =>
    let nl := cb l
    let r := processLines cb ls
    ((decide (nl ≠ l) || r.1), nl :: r.2)

/-- `process_file`: returns (whether a line changed, the resulting file
contents).  When nothing changed the original file is kept (the temporary
is discarded); when something changed the temporary replaces it. -/
def process_file (cb : Str → Str) (lines : List Str) : Bool × List Str :=
  let r := processLines cb lines
  if r.1 then (true, r.2) else (false, lines)

/-! ## `send_email` (lines 616-633) -/

/-- The observable effects of `send_email`: the message is written to
`target/email.txt` under the project root, and is either transmitted over
SMTP or printed to the console. -/
structure EmailEffect where
  saved_path : Str
  smtp_sent : Bool
  printed : Bool
deriving DecidableEq

/-- `send_email`: the file write is unconditional; the SMTP transmission
happens exactly when `mail and not dry_run`; otherwise the message is
printed instead. -/
def send_email (dry_run mail : Bool) : EmailEffect :=
  { saved_path := "target/email.txt".data
  , smtp_sent := mail && !dry_run
  , printed := !(mail && !dry_run) }

/-! ## `--check` mode (lines 127-133, 542-543, 692-733, 763-765)

Before `__main__` runs, module-level code purges the log, requires
`JAVA_HOME` (raising `RuntimeError` when absent, lines 127-133) and reads
the two email templates (raising when a file is missing, lines 542-543).
Only then does the `--check` branch run its diagnostics — each of which
catches its own `RuntimeError`/`KeyError` and prints a marker — and call
`sys.exit(0)`. -/

/-- The environment a `--check` invocation sees: whether `JAVA_HOME` is
set, whether the email template files are readable, and the outcome of
each diagnostic probe. -/
structure CheckEnv where
  java_home : Option Str
  templates_ok : Bool
  aws_secret : Bool
  aws_access : Bool
  gpg_ok : Bool
  expect_ok : Bool
  s3cmd_ok : Bool
  boto_ok : Bool
  java_version_ok : Bool
  mvn_version_ok : Bool
deriving DecidableEq

/-- An exception escaping module-level startup code. -/
inductive StartupError where
  | missingJavaHome
  | missingEmailTemplate
deriving DecidableEq

/-- `run_and_print` (lines 692-698): catches `RuntimeError` from the probe
and prints a marker either way — it never re-raises. -/
def run_and_print (ok : Bool) : Str :=
  if ok then "OK".data else "NOT OK".data

/-- `check_env_var` (lines 700-706): catches the `KeyError` of a missing
environment variable and prints a marker either way. -/
def check_env_var (present : Bool) : Str :=
  if present then "OK".data else "NOT OK".data

/-- `check_environment_and_commandline_tools` (lines 709-733): the
diagnostics run in order; every one is wrapped, so the function is total. -/
def check_environment_and_commandline_tools (e : CheckEnv) : List Str :=
  [check_env_var e.aws_secret, check_env_var e.aws_access,
   run_and_print e.gpg_ok, run_and_print e.expect_ok, run_and_print e.s3cmd_ok,
   run_and_print e.boto_ok, run_and_print e.java_version_ok,
   run_and_print e.mvn_version_ok]

/-- Module-level startup (runs before argument handling): requires
`JAVA_HOME` and the email templates. -/
def script_startup (e : CheckEnv) : Except StartupError Unit :=
  match e.java_home with
  | none => .error .missingJavaHome
  | some _ =>
    if e.templates_ok then .ok () else .error .missingEmailTemplate

/-- A `--check` invocation end to end: startup, then the diagnostics, then
`sys.exit(0)`.  An uncaught startup exception ends the interpreter instead. -/
def check_mode_run (e : CheckEnv) : Except StartupError (List Str × Int) :=
  match script_startup e with
  | .error err => .error err
  | .ok _ => .ok (check_environment_and_commandline_tools e, 0)

/-- The process exit status: an uncaught exception makes Python exit 1. -/
def exit_status : Except StartupError (List Str × Int) → Int
  | .error _ => 1
  | .ok r => r.2

/-! ## The release orchestration (`__main__`, lines 821-937)

The local git repository is a finite map from branch names to head
revisions (revisions are abstract `Nat` identifiers), a set of tag names,
the checked-out branch, and a counter supplying fresh revision identifiers
for commits and merge commits.  External effects that can succeed, fail or
move a head — `mvn clean`, `git pull --rebase` (which may rewrite the
pulled branch's head to whatever the remote holds), the issue-tracker
query and the maven build — are drawn from an `Oracle` record, so a
theorem quantified over oracles covers every combination of outcomes.
`run` raising `RuntimeError` is modelled by an `Except`/`Option` failure. -/

/-- The local repository state. -/
structure GitState where
  branches : List (Str × Nat)
  tags : List Str
  current : Str
  counter : Nat
deriving DecidableEq

/-- Head revision of a branch: first binding of the name, none if the
branch does not exist. -/
def headOf : List (Str × Nat) → Str → Option Nat
  | [], _ => none
  | (n, r) :: t, b => if n = b then some r else headOf t b

/-- Remove a branch binding. -/
def removeBranch (bs : List (Str × Nat)) (b : Str) : List (Str × Nat) :=
  bs.filter (fun p => decide (p.1 ≠ b))

/-- Move a branch's head to revision `r`. -/
def setHead (bs : List (Str × Nat)) (b : Str) (r : Nat) : List (Str × Nat) :=
  (b, r) :: removeBranch bs b

/-- `git checkout b` (line 435): fails unless the branch exists. -/
def git_checkout (s : GitState) (b : Str) : Option GitState :=
  if (headOf s.branches b).isSome then some { s with current := b } else none

/-- `git checkout -b b` (line 405): fails when the branch already exists,
else creates it at the current head and switches to it. -/
def git_checkout_new (s : GitState) (b : Str) : Option GitState :=
  match headOf s.branches b, headOf s.branches s.current with
  | none, some r => some { s with branches := (b, r) :: s.branches, current := b }
  | _, _ => none

/-- A `git commit` on the current branch: its head becomes a fresh
revision. -/
def git_commit_current (s : GitState) : GitState :=
  { s with branches := setHead s.branches s.current s.counter
         , counter := s.counter + 1 }

/-- `git reset --hard r` on the current branch (lines 916-918, 927-929). -/
def git_reset_hard (s : GitState) (r : Nat) : GitState :=
  { s with branches := setHead s.branches s.current r }

/-- `git pull --rebase remote b` on the current branch (line 404): the
oracle reports failure (`none`) or the head the rebase leaves (`some r`;
a pull that changes nothing reports the existing head). -/
def git_pull_rebase (s : GitState) (pull : Option Nat) : Option GitState :=
  match pull with
  | none => none
  | some r => some (git_reset_hard s r)

/-- The tag name `'v%s' % release`. -/
def vTag (release : Str) : Str := 'v' :: release

/-- `tag_release` (lines 430-431): `git tag -a` fails when the tag exists. -/
def tag_release (s : GitState) (release : Str) : Option GitState :=
  if vTag release ∈ s.tags then none
  else some { s with tags := vTag release :: s.tags }

/-- `git tag -d v<release>`: fails when the tag does not exist. -/
def git_tag_delete (s : GitState) (release : Str) : Option GitState :=
  if vTag release ∈ s.tags then
    some { s with tags := s.tags.filter (fun t => decide (t ≠ vTag release)) }
  else none

/-- `git branch -D b`: fails when the branch does not exist. -/
def git_branch_delete (s : GitState) (b : Str) : Option GitState :=
  if (headOf s.branches b).isSome then
    some { s with branches := removeBranch s.branches b }
  else none

/-- `git merge <release branch>` after `git checkout src_branch`
(`git_merge`, lines 440-442): fails unless both branches exist, else puts
a fresh merge commit on `src_branch`. -/
def git_merge (s : GitState) (src_branch release : Str) : Option GitState :=
  match git_checkout s src_branch with
  | none => none
  | some s1 =>
    if (headOf s1.branches (release_branch src_branch release)).isSome then
      some (git_commit_current s1)
    else none

/-- Outcomes of the external commands of one run. -/
structure Oracle where
  mvn_clean_ok : Bool
  pull_master : Option Nat
  pull_src : Option Nat
  open_issues : Nat
  build_ok : Bool
  artifact_ok : Bool
  checksum_ok : Bool
deriving DecidableEq

/-- The command-line switches the orchestration consults. -/
structure Flags where
  dry_run : Bool
  run_tests : Bool
  mail : Bool
deriving DecidableEq

/-- Observable events of the mutation phases, in execution order. -/
inductive Event where
  | editPom
  | editReadme
  | commitFiles (files : List Str)
  | gateCheck
  | buildInvoked
  | tagCreated
  | pushed
  | uploaded
  | emailSaved
  | emailSent
deriving DecidableEq

/-- The files staged before each commit: `pending_files = [POM_FILE,
README_FILE]` (line 842). -/
def pending_files : List Str := ["pom.xml".data, "README.md".data]

/-- The name of the primary branch. -/
def masterName : Str := "master".data

/-- `create_release_branch` (lines 402-405): checkout the source branch,
pull-rebase it, then create the release branch from it.  On failure the
partially mutated state is the error value. -/
def create_release_branch (s : GitState) (pull : Option Nat)
    (src_branch release : Str) : Except GitState GitState :=
  match git_checkout s src_branch with
  | none => .error s
  | some s1 =>
    match git_pull_rebase s1 pull with
    | none => .error s1
    | some s2 =>
      match git_checkout_new s2 (release_branch src_branch release) with
      | none => .error s2
      | some s3 => .ok s3

/-- Lines 821-830, the first `try`: record the baseline hashes of `master`
and the source branch, `mvn clean`, then create both release-lineage
branches.  A `RuntimeError` here is caught at lines 831-835, which print
the log and `sys.exit(-1)` — the error value carries the state at the
failure. -/
def phase1 (o : Oracle) (src rv : Str) (s0 : GitState) :
    Except GitState (GitState × Nat × Nat) :=
  match git_checkout s0 masterName with
  | none => .error s0
  | some s1 =>
    match headOf s1.branches masterName with
    | none => .error s1
    | some master_hash =>
      match git_checkout s1 src with
      | none => .error s1
      | some s2 =>
        match headOf s2.branches src with
        | none => .error s2
        | some version_hash =>
          if o.mvn_clean_ok then
            match create_release_branch s2 o.pull_master masterName rv with
            | .error sE => .error sE
            | .ok s3 =>
              match create_release_branch s3 o.pull_src src rv with
              | .error sE => .error sE
              | .ok s4 => .ok (s4, master_hash, version_hash)
          else .error s2

/-- Lines 838-909, the guarded block: version bump and commit on the
source-lineage release branch, gate check against open issues, build,
documentation updates and commit on the master-lineage release branch,
merge into the source branch, tag, next-snapshot commit, merge into
master, then push / upload / email (skipped under dry run).  An error
carries the state and events at the raise; events record mutations in
order. -/
def bigTry (o : Oracle) (fl : Flags) (src rv : Str) (s : GitState) :
    Except (GitState × List Event) (GitState × List Event) :=
  let s1 := git_commit_current s
  let evGate : List Event :=
    [.editPom, .editReadme, .commitFiles pending_files, .gateCheck]
  if o.open_issues > 0 then .error (s1, evGate)
  else
    let evBuild := evGate ++ [.buildInvoked]
    if !o.build_ok then .error (s1, evBuild)
    else if !o.artifact_ok then .error (s1, evBuild)
    else if !o.checksum_ok then .error (s1, evBuild)
    else
      match git_checkout s1 (release_branch masterName rv) with
      | none => .error (s1, evBuild)
      | some s2 =>
        let s3 := git_commit_current s2
        let evDoc := evBuild ++ [.editReadme, .editReadme, .commitFiles pending_files]
        match git_merge s3 src rv with
        | none => .error (s3, evDoc)
        | some s4 =>
          match tag_release s4 rv with
          | none => .error (s4, evDoc)
          | some s5 =>
            let s6 := git_commit_current s5
            let evSnap := evDoc
              ++ [.tagCreated, .editPom, .editReadme, .commitFiles pending_files]
            match git_merge s6 masterName rv with
            | none => .error (s6, evSnap)
            | some s7 =>
              let evEnd := evSnap
                ++ (if fl.dry_run then [] else [.pushed])
                ++ (if fl.dry_run then [] else [.uploaded])
                ++ [.emailSaved]
                ++ (if fl.mail && !fl.dry_run then [.emailSent] else [])
              .ok (s7, evEnd)

/-- The rollback of the `finally` block (lines 910-930): reset `master`
and the source branch to the recorded baselines, then delete the tag —
guarded by `try/except pass` on the failure path (lines 919-922), but not
on the dry-run success path (line 930). -/
def rollbackResets (s : GitState) (mh vh : Nat) (src : Str) : Option GitState :=
  match git_checkout s masterName with
  | none => none
  | some s1 =>
    let s2 := git_reset_hard s1 mh
    match git_checkout s2 src with
    | none => none
    | some s3 => some (git_reset_hard s3 vh)

/-- The whole `finally` block (lines 910-937): rollback when the run
failed, or at the end of a successful dry run; then unconditionally delete
both release-lineage branches and check out the source branch.  `none`
models an exception escaping the `finally` block itself. -/
def finallyBlock (success dry : Bool) (mh vh : Nat) (src rv : Str)
    (s : GitState) : Option GitState :=
  let afterRollback : Option GitState :=
    if !success then
      match rollbackResets s mh vh src with
      | none => none
      | some s4 =>
        some (match git_tag_delete s4 rv with
              | some s5 => s5
              | none => s4)
    else if dry then
      match rollbackResets s mh vh src with
      | none => none
      | some s4 => git_tag_delete s4 rv
    else some s
  match afterRollback with
  | none => none
  | some t =>
    match git_branch_delete t (release_branch masterName rv) with
    | none => none
    | some t1 =>
      match git_branch_delete t1 (release_branch src rv) with
      | none => none
      | some t2 => git_checkout t2 src

/-- What a run of the orchestration produces. -/
structure RunResult where
  exit_code : Int
  state : GitState
  events : List Event
deriving DecidableEq

/-- Lines 821-937 end to end.  `phase1` failure prints the log and exits
`-1` with no rollback and no cleanup; a failure inside the guarded block
runs the `finally` rollback and cleanup and then the exception ends the
interpreter with exit status 1; success runs the `finally` (with rollback
exactly under dry run) and exits 0.  `none` models an exception escaping
the `finally` block. -/
def script_run (o : Oracle) (fl : Flags) (src rv : Str) (s0 : GitState) :
    Option RunResult :=
  match phase1 o src rv s0 with
  | .error s => some ⟨-1, s, []⟩
  | .ok (s, mh, vh) =>
    match bigTry o fl src rv s with
    | .ok (s1, evs) =>
      match finallyBlock true fl.dry_run mh vh src rv s1 with
      | none => none
      | some s2 => some ⟨0, s2, evs⟩
    | .error (s1, evs) =>
      match finallyBlock false fl.dry_run mh vh src rv s1 with
      | none => none
      | some s2 => some ⟨1, s2, evs⟩

/-- The state a successful `phase1` leaves: both tracked branches rebased
onto the remote heads `pm` and `ps` reported by the pulls, and the two
release-lineage branches created from them. -/
def stateAfterPhase1 (s0 : GitState) (src rv : Str) (pm ps : Nat) : GitState :=
  { branches := (release_branch src rv, ps) ::
      setHead ((release_branch masterName rv, pm) :: setHead s0.branches masterName pm)
        src ps
  , tags := s0.tags
  , current := release_branch src rv
  , counter := s0.counter }

/-- The state a fully successful guarded block leaves: the release commit,
the documentation commit, the two merge commits and the snapshot commit,
and the release tag. -/
def stateAfterBigTry (s0 : GitState) (src rv : Str) (pm ps : Nat) : GitState :=
  { branches :=
      setHead (setHead (setHead (setHead (setHead
        (stateAfterPhase1 s0 src rv pm ps).branches
        (release_branch src rv) s0.counter)
        (release_branch masterName rv) (s0.counter + 1))
        src (s0.counter + 1 + 1))
        src (s0.counter + 1 + 1 + 1))
        masterName (s0.counter + 1 + 1 + 1 + 1)
  , tags := vTag rv :: s0.tags
  , current := masterName
  , counter := s0.counter + 1 + 1 + 1 + 1 + 1 }

/-- The state a completed dry run leaves after the `finally` block: both
tracked branches reset to their baselines, the tag deleted, both
release-lineage branches deleted, the source branch checked out. -/
def stateFinalDry (s0 : GitState) (src rv : Str) (pm ps mh vh : Nat) : GitState :=
  { branches := removeBranch (removeBranch
      (setHead (setHead (stateAfterBigTry s0 src rv pm ps).branches masterName mh)
        src vh)
      (release_branch masterName rv)) (release_branch src rv)
  , tags := (vTag rv :: s0.tags).filter (fun t => decide (t ≠ vTag rv))
  , current := src
  , counter := s0.counter + 1 + 1 + 1 + 1 + 1 }

/-- The state left when the gate check aborts the run: the release commit
existed only on the source-lineage release branch, the rollback reset both
tracked branches, the tag never existed (its guarded delete is a no-op),
and cleanup removed both release-lineage branches. -/
def stateFinalGate (s0 : GitState) (src rv : Str) (pm ps mh vh : Nat) : GitState :=
  { branches := removeBranch (removeBranch
      (setHead (setHead
        (setHead (stateAfterPhase1 s0 src rv pm ps).branches (release_branch src rv)
          s0.counter)
        masterName mh) src vh)
      (release_branch masterName rv)) (release_branch src rv)
  , tags := s0.tags
  , current := src
  , counter := s0.counter + 1 }

/-- The state at the failure of the second branch creation (the
source-lineage release branch already exists): `master` was rebased to
`pm` and carries the new master-lineage release branch, the source branch
was rebased to `ps`; nothing is rolled back or cleaned up. -/
def stateC2fail (s0 : GitState) (src rv : Str) (pm ps : Nat) : GitState :=
  { branches := setHead ((release_branch masterName rv, pm)
      :: setHead s0.branches masterName pm) src ps
  , tags := s0.tags
  , current := src
  , counter := s0.counter }

/-! ## Concrete fixtures (used by witnesses and counterexamples) -/

/-- A source branch named `1.x`. -/
def srcX : Str := "1.x".data

/-- Release version `2.5.0`. -/
def rvX : Str := "2.5.0".data

/-- An oracle on which every external step succeeds and no issue labeled
with the release version is open; the pulls move the branch heads to the
remote heads 21 and 11. -/
def oracleOkX : Oracle :=
  { mvn_clean_ok := true, pull_master := some 21, pull_src := some 11
  , open_issues := 0, build_ok := true, artifact_ok := true, checksum_ok := true }

/-- The same oracle with one open issue labeled with the release version. -/
def oracleGateX : Oracle := { oracleOkX with open_issues := 1 }

/-- Default flags: dry run, tests on, mail on. -/
def flagsDryX : Flags := { dry_run := true, run_tests := true, mail := true }

/-- A repository with `master` at revision 20 and `1.x` at revision 10. -/
def s0X : GitState :=
  { branches := [(srcX, 10), (masterName, 20)], tags := [], current := srcX
  , counter := 100 }

/-- The same repository with a leftover source-lineage release branch from
an earlier aborted attempt. -/
def s0rbX : GitState :=
  { branches := [(srcX, 10), (masterName, 20), (release_branch srcX rvX, 30)]
  , tags := [], current := srcX, counter := 100 }

/-- The state at which the run over `s0rbX` fails: both pulls done, the
master-lineage release branch created, the leftover source-lineage branch
refusing its creation. -/
def c2failX : GitState := stateC2fail s0rbX srcX rvX 21 11

/-- An environment with every diagnostic healthy but `JAVA_HOME` unset. -/
def c9EnvNoJava : CheckEnv :=
  { java_home := none, templates_ok := true, aws_secret := true
  , aws_access := true, gpg_ok := true, expect_ok := true, s3cmd_ok := true
  , boto_ok := true, java_version_ok := true, mvn_version_ok := true }

/-- An environment where startup succeeds but every diagnostic fails. -/
def c9EnvAllFail : CheckEnv :=
  { java_home := some "/usr/lib/jvm".data, templates_ok := true
  , aws_secret := false, aws_access := false, gpg_ok := false
  , expect_ok := false, s3cmd_ok := false, boto_ok := false
  , java_version_ok := false, mvn_version_ok := false }

/-! ## Lemmas about decimal rendering -/

theorem natToCharsAux_acc (fuel : Nat) : ∀ n acc,
    natToCharsAux fuel n acc = natToCharsAux fuel n [] ++ acc := by
  induction fuel with
  | zero => intro n acc; simp [natToCharsAux]
  | succ f ih =>
    intro n acc
    by_cases h : n < 10
    · simp [natToCharsAux, h]
    · simp only [natToCharsAux, if_neg h]
      rw [ih (n / 10) (Nat.digitChar (n % 10) :: acc),
        ih (n / 10) [Nat.digitChar (n % 10)]]
      simp

theorem natToCharsAux_irrel (n : Nat) : ∀ fuel, n < fuel →
    natToCharsAux fuel n [] = natToChars n := by
  induction n using Nat.strong_induction_on with
  | _ n ih =>
    intro fuel hf
    cases fuel with
    | zero => omega
    | succ f =>
      by_cases h10 : n < 10
      · simp [natToCharsAux, natToChars, h10]
      · have hdiv : n / 10 < n := Nat.div_lt_self (by omega) (by omega)
        have lhs : natToCharsAux (f + 1) n []
            = natToChars (n / 10) ++ [Nat.digitChar (n % 10)] := by
          rw [natToCharsAux, if_neg h10, natToCharsAux_acc,
            ih (n / 10) hdiv f (by omega)]
        have rhs : natToChars n
            = natToChars (n / 10) ++ [Nat.digitChar (n % 10)] := by
          rw [natToChars, natToCharsAux, if_neg h10, natToCharsAux_acc,
            ih (n / 10) hdiv n (by omega)]
        rw [lhs, rhs]

/-- The one-step unfolding of decimal rendering. -/
theorem natToChars_eq (n : Nat) : natToChars n =
    if n < 10 then [Nat.digitChar n]
    else natToChars (n / 10) ++ [Nat.digitChar (n % 10)] := by
  by_cases h10 : n < 10
  · simp [natToChars, natToCharsAux, h10]
  · have hdiv : n / 10 < n := Nat.div_lt_self (by omega) (by omega)
    rw [if_neg h10, natToChars, natToCharsAux, if_neg h10, natToCharsAux_acc,
      natToCharsAux_irrel (n / 10) n (by omega)]

theorem natToChars_ne_nil (n : Nat) : natToChars n ≠ [] := by
  rw [natToChars_eq]
  by_cases h : n < 10 <;> simp [h]

theorem digitChar_isDigit : ∀ m < 10, (Nat.digitChar m).isDigit = true := by decide

theorem digitVal_digitChar : ∀ m < 10, digitVal (Nat.digitChar m) = m := by decide

theorem natToChars_all_digits (n : Nat) : ∀ c ∈ natToChars n, c.isDigit = true := by
  induction n using Nat.strong_induction_on with
  | _ n ih =>
    rw [natToChars_eq]
    by_cases h10 : n < 10
    · simp only [if_pos h10]
      intro c hc
      rw [List.mem_singleton] at hc
      exact hc ▸ digitChar_isDigit n h10
    · have hdiv : n / 10 < n := Nat.div_lt_self (by omega) (by omega)
      simp only [if_neg h10]
      intro c hc
      rcases List.mem_append.mp hc with h | h
      · exact ih (n / 10) hdiv c h
      · rw [List.mem_singleton] at h
        exact h ▸ digitChar_isDigit (n % 10) (by omega)

theorem digitsToNat_append_digit (a : Str) (c : Char) :
    digitsToNat (a ++ [c]) = 10 * digitsToNat a + digitVal c := by
  simp [digitsToNat, List.foldl_append]

theorem digitsToNat_natToChars (n : Nat) : digitsToNat (natToChars n) = n := by
  induction n using Nat.strong_induction_on with
  | _ n ih =>
    rw [natToChars_eq]
    by_cases h10 : n < 10
    · simp only [if_pos h10]
      simp [digitsToNat, digitVal_digitChar n h10]
    · have hdiv : n / 10 < n := Nat.div_lt_self (by omega) (by omega)
      simp only [if_neg h10]
      rw [digitsToNat_append_digit, ih (n / 10) hdiv,
        digitVal_digitChar (n % 10) (by omega)]
      omega

/-! ## Lemmas about digit-run extraction -/

/-- One-step unfolding of `splitRunsCore` on a non-empty string. -/
theorem splitRunsCore_cons (c : Char) (cs : Str) :
    splitRunsCore (c :: cs) =
      if c.isDigit then
        if (splitRunsCore cs).2 then
          match (splitRunsCore cs).1 with
          | run :: rs => ((c :: run) :: rs, true)
          | [] => ([[c]], true)
        else ([c] :: (splitRunsCore cs).1, true)
      else ((splitRunsCore cs).1, false) := rfl

theorem splitRunsCore_snd_cons (c : Char) (cs : Str) :
    (splitRunsCore (c :: cs)).2 = c.isDigit := by
  rw [splitRunsCore_cons]
  by_cases h : c.isDigit = true
  · rw [h, if_pos rfl]
    by_cases h2 : (splitRunsCore cs).2 = true
    · rw [if_pos h2]
      cases hr : (splitRunsCore cs).1 <;> simp
    · rw [if_neg h2]
  · rw [Bool.not_eq_true] at h
    simp [h]

theorem splitRuns_nondigit_cons (c : Char) (cs : Str) (h : c.isDigit = false) :
    splitRuns (c :: cs) = splitRuns cs := by
  simp [splitRuns, splitRunsCore_cons, h]

theorem splitRunsCore_digit_append (d : Str) (s : Str) (hd : d ≠ [])
    (hall : ∀ c ∈ d, c.isDigit = true) (hs : HeadNotDigit s) :
    splitRunsCore (d ++ s) = (d :: splitRuns s, true) := by
  induction d with
  | nil => exact absurd rfl hd
  | cons c d' ih =>
    have hc : c.isDigit = true := hall c (List.mem_cons_self _ _)
    cases d' with
    | nil =>
      have hsnd : (splitRunsCore s).2 = false := by
        cases s with
        | nil => rfl
        | cons a t =>
          rw [splitRunsCore_snd_cons]
          exact hs a rfl
      simp [splitRunsCore_cons, hc, hsnd, splitRuns]
    | cons c' d'' =>
      have hrec := ih (by simp) (fun x hx => hall x (List.mem_cons_of_mem c hx))
      rw [List.cons_append, splitRunsCore_cons c ((c' :: d'') ++ s), hrec]
      simp [hc]

theorem splitRuns_digit_append (d : Str) (s : Str) (hd : d ≠ [])
    (hall : ∀ c ∈ d, c.isDigit = true) (hs : HeadNotDigit s) :
    splitRuns (d ++ s) = d :: splitRuns s := by
  rw [splitRuns, splitRunsCore_digit_append d s hd hall hs]

theorem splitRuns_no_digits (s : Str) (h : ∀ c ∈ s, c.isDigit = false) :
    splitRuns s = [] := by
  induction s with
  | nil => rfl
  | cons c cs ih =>
    rw [splitRuns_nondigit_cons c cs (h c (List.mem_cons_self _ _))]
    exact ih (fun x hx => h x (List.mem_cons_of_mem c hx))

/-- Extracting the digit runs of a canonically rendered `x.y.z` followed by
text that does not open with a digit: the three components come first, in
order, then whatever runs the tail holds. -/
theorem split_version_append (x y z : Nat) (rest : Str) (hrest : HeadNotDigit rest) :
    split_version_to_digits (verStr x y z ++ rest)
      = x :: y :: z :: split_version_to_digits rest := by
  have hdot : HeadNotDigit ('.' :: (natToChars y ++ '.' :: (natToChars z ++ rest))) := by
    intro c hc
    simp only [List.head?] at hc
    cases hc
    decide
  have hdot2 : HeadNotDigit ('.' :: (natToChars z ++ rest)) := by
    intro c hc
    simp only [List.head?] at hc
    cases hc
    decide
  have hshape : verStr x y z ++ rest
      = natToChars x ++ '.' :: (natToChars y ++ '.' :: (natToChars z ++ rest)) := by
    simp [verStr]
  rw [split_version_to_digits, hshape,
    splitRuns_digit_append _ _ (natToChars_ne_nil x) (natToChars_all_digits x) hdot,
    splitRuns_nondigit_cons _ _ (by decide),
    splitRuns_digit_append _ _ (natToChars_ne_nil y) (natToChars_all_digits y) hdot2,
    splitRuns_nondigit_cons _ _ (by decide),
    splitRuns_digit_append _ _ (natToChars_ne_nil z) (natToChars_all_digits z) hrest]
  simp [digitsToNat_natToChars, split_version_to_digits]

/-! ## Lemmas about Python `str.replace` -/

theorem replaceAuxF_irrel (p : Char) (ps rep : Str) :
    ∀ f1, ∀ s : Str, ∀ f2, s.length ≤ f1 → s.length ≤ f2 →
      replaceAuxF p ps rep f1 s = replaceAuxF p ps rep f2 s := by
  intro f1
  induction f1 with
  | zero =>
    intro s f2 h1 _
    have : s = [] := List.eq_nil_of_length_eq_zero (by omega)
    subst this
    cases f2 <;> rfl
  | succ f ih =>
    intro s f2 h1 h2
    cases s with
    | nil => cases f2 <;> rfl
    | cons c cs =>
      cases f2 with
      | zero => simp at h2
      | succ f2' =>
        simp only [replaceAuxF]
        by_cases hp : (p :: ps).isPrefixOf (c :: cs) = true
        · rw [if_pos hp, if_pos hp,
            ih (cs.drop ps.length) f2' (by simp at h1 ⊢; omega) (by simp at h2 ⊢; omega)]
        · rw [if_neg hp, if_neg hp, ih cs f2' (by simp at h1; omega) (by simp at h2; omega)]

theorem pyReplace_nil (pat rep : Str) (h : pat ≠ []) : pyReplace [] pat rep = [] := by
  cases pat with
  | nil => exact absurd rfl h
  | cons p ps => rfl

theorem pyReplace_nomatch (p c : Char) (ps cs rep : Str)
    (h : (p :: ps).isPrefixOf (c :: cs) = false) :
    pyReplace (c :: cs) (p :: ps) rep = c :: pyReplace cs (p :: ps) rep := by
  simp only [pyReplace, List.length_cons, replaceAuxF, h]
  rfl

theorem pyReplace_match (p c : Char) (ps cs rep : Str)
    (h : (p :: ps).isPrefixOf (c :: cs) = true) :
    pyReplace (c :: cs) (p :: ps) rep
      = rep ++ pyReplace (cs.drop ps.length) (p :: ps) rep := by
  simp only [pyReplace, List.length_cons, replaceAuxF, h, if_pos]
  rw [replaceAuxF_irrel p ps rep cs.length (cs.drop ps.length) (cs.drop ps.length).length
    (by simp) (le_refl _)]

/-- A string with no occurrence of the (non-empty) pattern is unchanged. -/
theorem pyReplace_no_occur (p : Char) (ps rep : Str) (s : Str)
    (h : occursIn (p :: ps) s = false) : pyReplace s (p :: ps) rep = s := by
  induction s with
  | nil => rfl
  | cons c cs ih =>
    rw [occursIn, Bool.or_eq_false_iff] at h
    rw [pyReplace_nomatch p c ps cs rep h.1, ih h.2]

/-- A pattern opening with a digit never occurs in a digit-free string. -/
theorem occursIn_digit_head (p : Char) (ps : Str) (hp : p.isDigit = true) :
    ∀ s : Str, (∀ c ∈ s, c.isDigit = false) → occursIn (p :: ps) s = false := by
  intro s
  induction s with
  | nil => intro _; rfl
  | cons c cs ih =>
    intro h
    have hc : c.isDigit = false := h c (List.mem_cons_self _ _)
    have hne : p ≠ c := by
      intro he
      rw [he, hc] at hp
      exact Bool.false_ne_true hp
    rw [occursIn, Bool.or_eq_false_iff]
    constructor
    · simp [List.isPrefixOf, hne]
    · exact ih (fun x hx => h x (List.mem_cons_of_mem c hx))

/-- Replacing the pattern at its occurrence opening the string. -/
theorem pyReplace_head_match (p : Char) (ps rest rep : Str) :
    pyReplace ((p :: ps) ++ rest) (p :: ps) rep = rep ++ pyReplace rest (p :: ps) rep := by
  have hpre : (p :: ps).isPrefixOf (p :: (ps ++ rest)) = true := by
    rw [List.isPrefixOf_iff_prefix]
    exact List.prefix_append _ _
  rw [List.cons_append, pyReplace_match p p ps (ps ++ rest) rep hpre, List.drop_left]

/-- `guess_snapshot` on a canonical `x.y.z` prefix followed by a tail that
opens with a non-digit and holds no further occurrence of `x.y.z`. -/
theorem guess_snapshot_append (x y z : Nat) (rest : Str)
    (hrest : HeadNotDigit rest)
    (hocc : occursIn (verStr x y z) rest = false) :
    guess_snapshot (verStr x y z ++ rest) = some (verStr x y (z + 1) ++ rest) := by
  rw [guess_snapshot, split_version_append x y z rest hrest]
  show some (pyReplace (verStr x y z ++ rest) (verStr x y z) (verStr x y (z + 1))) = _
  obtain ⟨p, ps, hp⟩ : ∃ p ps, natToChars x = p :: ps := by
    cases hx : natToChars x with
    | nil => exact absurd hx (natToChars_ne_nil x)
    | cons p ps => exact ⟨p, ps, rfl⟩
  have hv : verStr x y z = p :: (ps ++ '.' :: natToChars y ++ '.' :: natToChars z) := by
    rw [verStr, hp]
    simp
  rw [hv] at hocc ⊢
  rw [pyReplace_head_match, pyReplace_no_occur _ _ _ rest hocc]

/-- The digit runs of a canonical `x.y.z` string are precisely `x`, `y`, `z`. -/
theorem split_verStr (x y z : Nat) :
    split_version_to_digits (verStr x y z) = [x, y, z] := by
  have h := split_version_append x y z [] (by intro c hc; cases hc)
  simpa [split_version_to_digits, splitRuns] using h

/-- The digit runs of a canonical `x.y` string are precisely `x`, `y`. -/
theorem split_esStr (x y : Nat) :
    split_version_to_digits (esStr x y) = [x, y] := by
  have hdot : HeadNotDigit ('.' :: natToChars y) := by
    intro c hc
    simp only [List.head?] at hc
    cases hc
    decide
  have hy : natToChars y ++ ([] : Str) = natToChars y := List.append_nil _
  rw [split_version_to_digits, esStr,
    splitRuns_digit_append _ _ (natToChars_ne_nil x) (natToChars_all_digits x) hdot,
    splitRuns_nondigit_cons _ _ (by decide), ← hy,
    splitRuns_digit_append _ _ (natToChars_ne_nil y) (natToChars_all_digits y)
      (by intro c hc; cases hc)]
  simp [digitsToNat_natToChars, splitRuns, splitRunsCore]

theorem natToChars_lt10 (n : Nat) (h : n < 10) : natToChars n = [Nat.digitChar n] := by
  rw [natToChars_eq, if_pos h]

theorem digitChar_inj_lt10 : ∀ m < 10, ∀ k < 10, Nat.digitChar m = Nat.digitChar k → m = k := by
  decide

/-- The anchor produced for canonical version strings. -/
theorem get_doc_anchor_canonical (x y z a b : Nat) :
    get_doc_anchor (verStr x y z) (esStr a b)
      = some ("#version-".data ++ natToChars x ++ natToChars y ++ natToChars z
          ++ "-for-elasticsearch-".data ++ natToChars a ++ natToChars b) := by
  rw [get_doc_anchor, split_verStr, split_esStr]

/-! ## Lemmas about the repository-state operations -/

theorem headOf_cons_self (b : Str) (r : Nat) (bs : List (Str × Nat)) :
    headOf ((b, r) :: bs) b = some r := by
  simp [headOf]

theorem headOf_cons_ne (b c : Str) (r : Nat) (bs : List (Str × Nat)) (h : c ≠ b) :
    headOf ((b, r) :: bs) c = headOf bs c := by
  simp [headOf, Ne.symm h]

theorem removeBranch_cons (n : Str) (r : Nat) (t : List (Str × Nat)) (b : Str) :
    removeBranch ((n, r) :: t) b
      = if n = b then removeBranch t b else (n, r) :: removeBranch t b := by
  simp only [removeBranch, List.filter_cons]
  by_cases h : n = b <;> simp [h]

theorem headOf_removeBranch_self (bs : List (Str × Nat)) (b : Str) :
    headOf (removeBranch bs b) b = none := by
  induction bs with
  | nil => rfl
  | cons p t ih =>
    obtain ⟨n, r⟩ := p
    rw [removeBranch_cons]
    by_cases h : n = b
    · rw [if_pos h]
      exact ih
    · rw [if_neg h, headOf, if_neg h]
      exact ih

theorem headOf_removeBranch_ne (bs : List (Str × Nat)) (b c : Str) (h : c ≠ b) :
    headOf (removeBranch bs b) c = headOf bs c := by
  induction bs with
  | nil => rfl
  | cons p t ih =>
    obtain ⟨n, r⟩ := p
    rw [removeBranch_cons]
    by_cases hn : n = b
    · rw [if_pos hn, headOf, if_neg (by rw [hn]; exact fun he => h he.symm), ih]
    · rw [if_neg hn, headOf, headOf]
      by_cases hc : n = c
      · rw [if_pos hc, if_pos hc]
      · rw [if_neg hc, if_neg hc, ih]

theorem headOf_setHead_self (bs : List (Str × Nat)) (b : Str) (r : Nat) :
    headOf (setHead bs b r) b = some r := by
  simp [setHead, headOf]

theorem headOf_setHead_ne (bs : List (Str × Nat)) (b c : Str) (r : Nat) (h : c ≠ b) :
    headOf (setHead bs b r) c = headOf bs c := by
  rw [setHead, headOf_cons_ne _ _ _ _ h, headOf_removeBranch_ne _ _ _ h]

/-! ## Distinctness of the branch names the orchestration touches -/

theorem masterName_ne_release_branch (b v : Str) : masterName ≠ release_branch b v := by
  intro h
  have hlen := congrArg List.length h
  rw [release_branch] at hlen
  simp only [List.length_append, List.length_cons, List.length_nil, masterName] at hlen
  omega

theorem src_ne_release_branch (src v : Str) : src ≠ release_branch src v := by
  intro h
  have hlen := congrArg List.length h
  rw [release_branch] at hlen
  simp only [List.length_append, List.length_cons, List.length_nil] at hlen
  omega

theorem release_branch_master_ne (src rv : Str) (hsrc : src ≠ masterName) :
    release_branch masterName rv ≠ release_branch src rv := by
  intro h
  rw [release_branch, release_branch] at h
  have h1 := List.append_cancel_right h
  have h2 := List.append_cancel_left h1
  exact hsrc h2.symm

/-! ## Symbolic execution of the orchestration -/

/-- `phase1` under hypotheses that make every step succeed. -/
theorem phase1_ok (o : Oracle) (src rv : Str) (s0 : GitState) (mh vh pm ps : Nat)
    (hm : headOf s0.branches masterName = some mh)
    (hv : headOf s0.branches src = some vh)
    (hrbM : headOf s0.branches (release_branch masterName rv) = none)
    (hrbS : headOf s0.branches (release_branch src rv) = none)
    (hsm : src ≠ masterName)
    (hclean : o.mvn_clean_ok = true)
    (hpm : o.pull_master = some pm)
    (hps : o.pull_src = some ps) :
    phase1 o src rv s0 = .ok (stateAfterPhase1 s0 src rv pm ps, mh, vh) := by
  have h1 : release_branch masterName rv ≠ masterName :=
    Ne.symm (masterName_ne_release_branch masterName rv)
  have h2 : release_branch src rv ≠ masterName :=
    Ne.symm (masterName_ne_release_branch src rv)
  have h3 : release_branch src rv ≠ src := Ne.symm (src_ne_release_branch src rv)
  have h4 : src ≠ release_branch masterName rv := by
    intro h
    rw [h, hrbM] at hv
    exact Option.noConfusion hv
  have h5 : release_branch src rv ≠ release_branch masterName rv :=
    Ne.symm (release_branch_master_ne src rv hsm)
  simp only [phase1, create_release_branch, git_checkout, git_pull_rebase,
    git_checkout_new, git_reset_hard, stateAfterPhase1, hclean, hpm, hps,
    hm, hv, hrbM, hrbS, hsm, h1, h2, h3, h4, h5,
    headOf_setHead_self, headOf_setHead_ne, headOf_cons_self, headOf_cons_ne,
    Option.isSome_some, if_true, ne_eq, not_false_eq_true, ite_true]

/-- `phase1` when the source-lineage release branch already exists: the
second `git checkout -b` fails after both pulls already moved the tracked
branches, and the error state keeps everything done so far. -/
theorem phase1_fail_second (o : Oracle) (src rv : Str) (s0 : GitState)
    (mh vh pm ps q : Nat)
    (hm : headOf s0.branches masterName = some mh)
    (hv : headOf s0.branches src = some vh)
    (hrbM : headOf s0.branches (release_branch masterName rv) = none)
    (hrbS : headOf s0.branches (release_branch src rv) = some q)
    (hsm : src ≠ masterName)
    (hclean : o.mvn_clean_ok = true)
    (hpm : o.pull_master = some pm)
    (hps : o.pull_src = some ps) :
    phase1 o src rv s0 = .error (stateC2fail s0 src rv pm ps) := by
  have h1 : release_branch masterName rv ≠ masterName :=
    Ne.symm (masterName_ne_release_branch masterName rv)
  have h2 : release_branch src rv ≠ masterName :=
    Ne.symm (masterName_ne_release_branch src rv)
  have h3 : release_branch src rv ≠ src := Ne.symm (src_ne_release_branch src rv)
  have h4 : src ≠ release_branch masterName rv := by
    intro h
    rw [h, hrbM] at hv
    exact Option.noConfusion hv
  have h5 : release_branch src rv ≠ release_branch masterName rv :=
    Ne.symm (release_branch_master_ne src rv hsm)
  simp only [phase1, create_release_branch, git_checkout, git_pull_rebase,
    git_checkout_new, git_reset_hard, stateC2fail, hclean, hpm, hps,
    hm, hv, hrbM, hrbS, hsm, h1, h2, h3, h4, h5,
    headOf_setHead_self, headOf_setHead_ne, headOf_cons_self, headOf_cons_ne,
    Option.isSome_some, if_true, ne_eq, not_false_eq_true, ite_true]

/-- `phase1` when the rebase pull of `master` fails during the first
branch creation: nothing has been mutated yet. -/
theorem phase1_fail_pull_master (o : Oracle) (src rv : Str) (s0 : GitState)
    (mh vh : Nat)
    (hm : headOf s0.branches masterName = some mh)
    (hv : headOf s0.branches src = some vh)
    (hclean : o.mvn_clean_ok = true)
    (hpm : o.pull_master = none) :
    phase1 o src rv s0 = .error { s0 with current := masterName } := by
  simp only [phase1, create_release_branch, git_checkout, git_pull_rebase,
    hm, hv, hclean, hpm, Option.isSome_some, if_true, ite_true]

/-- `phase1` when the master-lineage release branch already exists: its
`git checkout -b` fails after the pull already rebased `master`. -/
theorem phase1_fail_first_exists (o : Oracle) (src rv : Str) (s0 : GitState)
    (mh vh pm q : Nat)
    (hm : headOf s0.branches masterName = some mh)
    (hv : headOf s0.branches src = some vh)
    (hq : headOf s0.branches (release_branch masterName rv) = some q)
    (hclean : o.mvn_clean_ok = true)
    (hpm : o.pull_master = some pm) :
    phase1 o src rv s0 = .error
      { branches := setHead s0.branches masterName pm, tags := s0.tags
      , current := masterName, counter := s0.counter } := by
  have h1 : release_branch masterName rv ≠ masterName :=
    Ne.symm (masterName_ne_release_branch masterName rv)
  simp only [phase1, create_release_branch, git_checkout, git_pull_rebase,
    git_checkout_new, git_reset_hard, hm, hv, hq, hclean, hpm, h1,
    headOf_setHead_self, headOf_setHead_ne, Option.isSome_some, if_true,
    ne_eq, not_false_eq_true, ite_true]

/-- `phase1` when the rebase pull of the source branch fails during the
second branch creation: `master` is already rebased and carries the new
master-lineage release branch. -/
theorem phase1_fail_pull_src (o : Oracle) (src rv : Str) (s0 : GitState)
    (mh vh pm : Nat)
    (hm : headOf s0.branches masterName = some mh)
    (hv : headOf s0.branches src = some vh)
    (hrbM : headOf s0.branches (release_branch masterName rv) = none)
    (hsm : src ≠ masterName)
    (hclean : o.mvn_clean_ok = true)
    (hpm : o.pull_master = some pm)
    (hps : o.pull_src = none) :
    phase1 o src rv s0 = .error
      { branches := (release_branch masterName rv, pm)
          :: setHead s0.branches masterName pm
      , tags := s0.tags, current := src, counter := s0.counter } := by
  have h1 : release_branch masterName rv ≠ masterName :=
    Ne.symm (masterName_ne_release_branch masterName rv)
  have h4 : src ≠ release_branch masterName rv := by
    intro h
    rw [h, hrbM] at hv
    exact Option.noConfusion hv
  simp only [phase1, create_release_branch, git_checkout, git_pull_rebase,
    git_checkout_new, git_reset_hard, hm, hv, hrbM, hclean, hpm, hps, hsm,
    h1, h4, headOf_setHead_self, headOf_setHead_ne, headOf_cons_self,
    headOf_cons_ne, Option.isSome_some, if_true, ne_eq, not_false_eq_true,
    ite_true]

/-- The guarded block stops at the gate check when issues labeled with the
release version are open: `check_opened_issues` raises after the release
commit, before the build. -/
theorem bigTry_gate_fail (o : Oracle) (fl : Flags) (src rv : Str) (s : GitState)
    (h : 0 < o.open_issues) :
    bigTry o fl src rv s = .error (git_commit_current s,
      [.editPom, .editReadme, .commitFiles pending_files, .gateCheck]) := by
  simp only [bigTry, if_pos h]

/-- The guarded block under an oracle on which everything succeeds. -/
theorem bigTry_ok (o : Oracle) (fl : Flags) (src rv : Str) (s0 : GitState)
    (pm ps : Nat)
    (hsm : src ≠ masterName)
    (hsrbM : src ≠ release_branch masterName rv)
    (htag : vTag rv ∉ s0.tags)
    (hoi : o.open_issues = 0)
    (hb : o.build_ok = true)
    (ha : o.artifact_ok = true)
    (hc : o.checksum_ok = true) :
    bigTry o fl src rv (stateAfterPhase1 s0 src rv pm ps)
      = .ok (stateAfterBigTry s0 src rv pm ps,
        [.editPom, .editReadme, .commitFiles pending_files, .gateCheck, .buildInvoked,
         .editReadme, .editReadme, .commitFiles pending_files, .tagCreated,
         .editPom, .editReadme, .commitFiles pending_files]
        ++ (if fl.dry_run then [] else [.pushed])
        ++ (if fl.dry_run then [] else [.uploaded])
        ++ [.emailSaved]
        ++ (if fl.mail && !fl.dry_run then [.emailSent] else [])) := by
  have h1 : release_branch masterName rv ≠ masterName :=
    Ne.symm (masterName_ne_release_branch masterName rv)
  have h1s : masterName ≠ release_branch masterName rv :=
    masterName_ne_release_branch masterName rv
  have h2 : release_branch src rv ≠ masterName :=
    Ne.symm (masterName_ne_release_branch src rv)
  have h2s : masterName ≠ release_branch src rv :=
    masterName_ne_release_branch src rv
  have h3 : release_branch src rv ≠ src := Ne.symm (src_ne_release_branch src rv)
  have h3s : src ≠ release_branch src rv := src_ne_release_branch src rv
  have h4 : release_branch masterName rv ≠ src := Ne.symm hsrbM
  have h5 : release_branch masterName rv ≠ release_branch src rv :=
    release_branch_master_ne src rv hsm
  have h5s : release_branch src rv ≠ release_branch masterName rv := Ne.symm h5
  have hms : masterName ≠ src := Ne.symm hsm
  simp only [bigTry, git_merge, git_checkout, git_commit_current, git_reset_hard,
    tag_release, stateAfterPhase1, stateAfterBigTry, hoi, hb, ha, hc, htag,
    hsm, hms, h1, h1s, h2, h2s, h3, h3s, h4, h5, h5s, hsrbM,
    headOf_setHead_self, headOf_setHead_ne, headOf_cons_self, headOf_cons_ne,
    Option.isSome_some, gt_iff_lt, lt_self_iff_false, if_false, Bool.not_true,
    Bool.false_eq_true, if_true, ne_eq, not_false_eq_true, ite_true, ite_false,
    List.append_assoc, List.cons_append, List.nil_append, List.singleton_append]

/-- The `finally` block at the end of a successful dry run: rollback (both
resets and the unguarded tag delete) followed by cleanup. -/
theorem finallyBlock_dry_ok (s0 : GitState) (src rv : Str) (pm ps mh vh : Nat)
    (hsm : src ≠ masterName)
    (hsrbM : src ≠ release_branch masterName rv) :
    finallyBlock true true mh vh src rv (stateAfterBigTry s0 src rv pm ps)
      = some (stateFinalDry s0 src rv pm ps mh vh) := by
  have h1 : release_branch masterName rv ≠ masterName :=
    Ne.symm (masterName_ne_release_branch masterName rv)
  have h1s : masterName ≠ release_branch masterName rv :=
    masterName_ne_release_branch masterName rv
  have h2 : release_branch src rv ≠ masterName :=
    Ne.symm (masterName_ne_release_branch src rv)
  have h2s : masterName ≠ release_branch src rv :=
    masterName_ne_release_branch src rv
  have h3 : release_branch src rv ≠ src := Ne.symm (src_ne_release_branch src rv)
  have h3s : src ≠ release_branch src rv := src_ne_release_branch src rv
  have h4 : release_branch masterName rv ≠ src := Ne.symm hsrbM
  have h5 : release_branch masterName rv ≠ release_branch src rv :=
    release_branch_master_ne src rv hsm
  have h5s : release_branch src rv ≠ release_branch masterName rv := Ne.symm h5
  have hms : masterName ≠ src := Ne.symm hsm
  simp only [finallyBlock, rollbackResets, git_checkout, git_reset_hard,
    git_tag_delete, git_branch_delete, stateAfterBigTry, stateAfterPhase1,
    stateFinalDry, hsm, hms, hsrbM, h1, h1s, h2, h2s, h3, h3s, h4, h5, h5s,
    headOf_setHead_self, headOf_setHead_ne, headOf_cons_self, headOf_cons_ne,
    headOf_removeBranch_self, headOf_removeBranch_ne,
    Option.isSome_some, Bool.not_true, Bool.false_eq_true, List.mem_cons,
    if_true, if_false, ite_true, ite_false, ne_eq, not_false_eq_true,
    true_or, or_true, eq_self_iff_true, if_pos]

/-- The `finally` block after a failure raised at the gate check (for any
dry-run setting): both resets run, the guarded tag delete is a no-op
because the tag was never created, then cleanup runs. -/
theorem finallyBlock_gate (d : Bool) (s0 : GitState) (src rv : Str)
    (pm ps mh vh : Nat)
    (hsm : src ≠ masterName)
    (hsrbM : src ≠ release_branch masterName rv)
    (htag : vTag rv ∉ s0.tags) :
    finallyBlock false d mh vh src rv
        (git_commit_current (stateAfterPhase1 s0 src rv pm ps))
      = some (stateFinalGate s0 src rv pm ps mh vh) := by
  have h1 : release_branch masterName rv ≠ masterName :=
    Ne.symm (masterName_ne_release_branch masterName rv)
  have h1s : masterName ≠ release_branch masterName rv :=
    masterName_ne_release_branch masterName rv
  have h2 : release_branch src rv ≠ masterName :=
    Ne.symm (masterName_ne_release_branch src rv)
  have h2s : masterName ≠ release_branch src rv :=
    masterName_ne_release_branch src rv
  have h3 : release_branch src rv ≠ src := Ne.symm (src_ne_release_branch src rv)
  have h3s : src ≠ release_branch src rv := src_ne_release_branch src rv
  have h4 : release_branch masterName rv ≠ src := Ne.symm hsrbM
  have h5 : release_branch masterName rv ≠ release_branch src rv :=
    release_branch_master_ne src rv hsm
  have h5s : release_branch src rv ≠ release_branch masterName rv := Ne.symm h5
  have hms : masterName ≠ src := Ne.symm hsm
  simp only [finallyBlock, rollbackResets, git_checkout, git_reset_hard,
    git_commit_current, git_tag_delete, git_branch_delete, stateAfterPhase1,
    stateFinalGate, hsm, hms, hsrbM, htag, h1, h1s, h2, h2s, h3, h3s, h4, h5, h5s,
    headOf_setHead_self, headOf_setHead_ne, headOf_cons_self, headOf_cons_ne,
    headOf_removeBranch_self, headOf_removeBranch_ne,
    Option.isSome_some, Bool.not_false, Bool.false_eq_true, List.mem_cons,
    if_true, if_false, ite_true, ite_false, ne_eq, not_false_eq_true]

/-! ## Small helpers -/

theorem HeadNotDigit_cons (c : Char) (cs : Str) (h : c.isDigit = false) :
    HeadNotDigit (c :: cs) := by
  intro a ha
  rw [List.head?, Option.mem_def] at ha
  cases Option.some.inj ha
  exact h

theorem map_self_of_fixed (cb : Str → Str) (ls : List Str)
    (h : ∀ l ∈ ls, cb l = l) : ls.map cb = ls := by
  induction ls with
  | nil => rfl
  | cons l t ih =>
    rw [List.map_cons, h l (List.mem_cons_self _ _),
      ih (fun x hx => h x (List.mem_cons_of_mem l hx))]

theorem processLines_snd (cb : Str → Str) (ls : List Str) :
    (processLines cb ls).2 = ls.map cb := by
  induction ls with
  | nil => rfl
  | cons l t ih => simp [processLines, ih]

theorem processLines_fst (cb : Str → Str) (ls : List Str) :
    (processLines cb ls).1 = true ↔ ∃ l ∈ ls, cb l ≠ l := by
  induction ls with
  | nil => simp [processLines]
  | cons l t ih =>
    simp only [processLines, Bool.or_eq_true, decide_eq_true_eq, ih,
      List.mem_cons]
    constructor
    · rintro (h | ⟨x, hx, hne⟩)
      · exact ⟨l, Or.inl rfl, h⟩
      · exact ⟨x, Or.inr hx, hne⟩
    · rintro ⟨x, hx | hx, hne⟩
      · exact Or.inl (hx ▸ hne)
      · exact Or.inr ⟨x, hx, hne⟩

/-! ## The claims -/

/-- Claim C4: for every file and per-line rewrite rule, `process_file`
returns true exactly when the rule changed at least one line; when no line
changed the contents are byte-identical; and the output is the rule
applied to each input line in original order, so unmodified lines are
preserved exactly. -/
theorem c4_process_file_contract (cb : Str → Str) (lines : List Str) :
    ((process_file cb lines).1 = true ↔ ∃ l ∈ lines, cb l ≠ l)
    ∧ ((∀ l ∈ lines, cb l = l) → (process_file cb lines).2 = lines)
    ∧ (process_file cb lines).2 = lines.map cb := by
  refine ⟨?_, ?_, ?_⟩
  · by_cases h : (processLines cb lines).1 = true
    · simp only [process_file, h, if_true]
      exact iff_of_true trivial ((processLines_fst cb lines).mp h)
    · simp only [process_file, h, if_false, Bool.false_eq_true]
      rw [← processLines_fst cb lines]
      exact iff_of_false (by simp [h]) (by simpa using h)
  · intro h
    have hfst : (processLines cb lines).1 = false := by
      rw [Bool.eq_false_iff, ne_eq, processLines_fst]
      rintro ⟨l, hl, hne⟩
      exact hne (h l hl)
    simp [process_file, hfst]
  · by_cases h : (processLines cb lines).1 = true
    · simp [process_file, h, processLines_snd]
    · have hall : ∀ l ∈ lines, cb l = l := by
        intro l hl
        by_contra hne
        exact h ((processLines_fst cb lines).mpr ⟨l, hl, hne⟩)
      simp [process_file, h, map_self_of_fixed cb lines hall]

/-- Claim C5: for every canonical `major.minor.patch-SNAPSHOT` version
string, `split_version_to_digits` yields exactly `[major, minor, patch]`,
and `guess_snapshot` increments only the patch component, leaving major,
minor, and the rest of the text unchanged. -/
theorem c5_version_triple_snapshot (x y z : Nat) :
    split_version_to_digits (verStr x y z ++ "-SNAPSHOT".data) = [x, y, z]
    ∧ guess_snapshot (verStr x y z ++ "-SNAPSHOT".data)
      = some (verStr x y (z + 1) ++ "-SNAPSHOT".data) := by
  have hrest : HeadNotDigit ("-SNAPSHOT".data) := HeadNotDigit_cons _ _ (by decide)
  constructor
  · rw [split_version_append x y z _ hrest]
    have : split_version_to_digits ("-SNAPSHOT".data) = [] := by decide
    rw [this]
  · refine guess_snapshot_append x y z _ hrest ?_
    obtain ⟨p, ps, hp⟩ : ∃ p ps, natToChars x = p :: ps := by
      cases hx : natToChars x with
      | nil => exact absurd hx (natToChars_ne_nil x)
      | cons p ps => exact ⟨p, ps, rfl⟩
    have hpd : p.isDigit = true :=
      natToChars_all_digits x p (hp ▸ List.mem_cons_self _ _)
    have hv : verStr x y z = p :: (ps ++ '.' :: natToChars y ++ '.' :: natToChars z) := by
      rw [verStr, hp]
      simp
    rw [hv]
    exact occursIn_digit_head p _ hpd _ (by decide)

/-- Claim C6: `send_email` always writes the composed message to
`target/email.txt` for every combination of the dry-run and mail flags,
and transmits over SMTP exactly when mail is enabled and dry-run is
false. -/
theorem c6_send_email_contract :
    ∀ dry_run mail : Bool,
      (send_email dry_run mail).saved_path = "target/email.txt".data
      ∧ ((send_email dry_run mail).smtp_sent = true
          ↔ (mail = true ∧ dry_run = false)) := by
  decide

/-- Claim C8: the release-branch naming function is not injective — two
distinct (source branch, version) pairs can map to the same branch name,
the underscore separator being absorbed by an underscore inside a name. -/
theorem c8_release_branch_not_injective :
    ∃ b1 v1 b2 v2 : Str, (b1, v1) ≠ (b2, v2)
      ∧ release_branch b1 v1 = release_branch b2 v2 := by
  refine ⟨"a_b".data, "c".data, "a".data, "b_c".data, ?_, ?_⟩ <;> decide

/-- Claim C9, counterexample: with `--check` but no `JAVA_HOME` in the
environment, the module-level startup raises before the check branch is
reached, and the process exits 1, not 0. -/
theorem c9_counterexample :
    check_mode_run c9EnvNoJava = .error .missingJavaHome
    ∧ exit_status (check_mode_run c9EnvNoJava) = 1
    ∧ (1 : Int) ≠ 0 :=
  ⟨rfl, rfl, by decide⟩

/-- Claim C9 as amended: provided module-level startup succeeds
(`JAVA_HOME` set and the email templates readable), a `--check` invocation
exits 0 whatever the outcome of every diagnostic, since each diagnostic
catches its own failure and only prints a marker. -/
theorem c9_check_mode_exit_zero (e : CheckEnv)
    (hj : e.java_home.isSome = true)
    (ht : e.templates_ok = true) :
    exit_status (check_mode_run e) = 0 := by
  obtain ⟨j, hj'⟩ := Option.isSome_iff_exists.mp hj
  simp [check_mode_run, script_startup, hj', ht, exit_status]

/-- Claim C9 witness: an environment in which every diagnostic fails still
exits 0 from `--check`. -/
theorem c9_witness : exit_status (check_mode_run c9EnvAllFail) = 0 :=
  c9_check_mode_exit_zero c9EnvAllFail (by decide) (by decide)

/-- Claim C10, counterexample: `str.replace` replaces every occurrence of
the `x.y.z` substring, so on `1.1.1.1.1.1-SNAPSHOT` (six digit runs, first
three `1,1,1`) the trailing components are altered too: the result is
`1.1.2.1.1.2-SNAPSHOT`, not the claimed `1.1.2` followed by the unchanged
tail `.1.1.1-SNAPSHOT`. -/
theorem c10_counterexample :
    guess_snapshot ("1.1.1.1.1.1-SNAPSHOT".data)
      = some ("1.1.2.1.1.2-SNAPSHOT".data)
    ∧ guess_snapshot ("1.1.1.1.1.1-SNAPSHOT".data)
      ≠ some ("1.1.2".data ++ ".1.1.1-SNAPSHOT".data) := by
  decide

/-- Claim C10 as amended: `split_version_to_digits` is total and returns
all digit runs in order (here: the first three components followed by the
runs of the tail); and for a version string with extra trailing components,
`guess_snapshot` uses only the first three and leaves the tail unchanged
provided the tail contains no further occurrence of the `x.y.z` substring
(Python `str.replace` replaces every occurrence). -/
theorem c10_split_total_guess_first_three (x y z : Nat) (rest : Str)
    (h1 : HeadNotDigit rest)
    (h2 : occursIn (verStr x y z) rest = false) :
    split_version_to_digits (verStr x y z ++ rest)
      = x :: y :: z :: split_version_to_digits rest
    ∧ guess_snapshot (verStr x y z ++ rest) = some (verStr x y (z + 1) ++ rest) :=
  ⟨split_version_append x y z rest h1, guess_snapshot_append x y z rest h1 h2⟩

/-- Claim C10 witness: a four-component version `1.2.3.4-SNAPSHOT` keeps
its tail `.4-SNAPSHOT` unchanged while the patch component becomes 4. -/
theorem c10_witness :
    split_version_to_digits (verStr 1 2 3 ++ ".4-SNAPSHOT".data)
      = 1 :: 2 :: 3 :: split_version_to_digits (".4-SNAPSHOT".data)
    ∧ guess_snapshot (verStr 1 2 3 ++ ".4-SNAPSHOT".data)
      = some (verStr 1 2 (3 + 1) ++ ".4-SNAPSHOT".data) :=
  c10_split_total_guess_first_three 1 2 3 (".4-SNAPSHOT".data)
    (HeadNotDigit_cons _ _ (by decide)) (by decide)

/-- Claim C7: `get_doc_anchor` is a deterministic pure function of the two
version strings (it is a Lean function of exactly those arguments), and
within the supported range — canonical versions with single-digit
components, as in the code's own example `#version-230-for-elasticsearch-13`,
where the digit concatenation is unambiguous — it is injective: two
distinct (release, dependency) pairs never share an anchor. -/
theorem c7_doc_anchor_injective (x y z a b x' y' z' a' b' : Nat)
    (hx : x < 10) (hy : y < 10) (hz : z < 10) (ha : a < 10) (hb : b < 10)
    (hx' : x' < 10) (hy' : y' < 10) (hz' : z' < 10) (ha' : a' < 10) (hb' : b' < 10)
    (heq : get_doc_anchor (verStr x y z) (esStr a b)
      = get_doc_anchor (verStr x' y' z') (esStr a' b')) :
    verStr x y z = verStr x' y' z' ∧ esStr a b = esStr a' b' := by
  rw [get_doc_anchor_canonical, get_doc_anchor_canonical,
    natToChars_lt10 x hx, natToChars_lt10 y hy, natToChars_lt10 z hz,
    natToChars_lt10 a ha, natToChars_lt10 b hb,
    natToChars_lt10 x' hx', natToChars_lt10 y' hy', natToChars_lt10 z' hz',
    natToChars_lt10 a' ha', natToChars_lt10 b' hb'] at heq
  simp only [Option.some.injEq, List.append_assoc, List.singleton_append,
    List.cons_append, List.nil_append, List.cons.injEq, and_true, true_and] at heq
  obtain ⟨e1, e2, e3, e4, e5⟩ := heq
  have hxx := digitChar_inj_lt10 x hx x' hx' e1
  have hyy := digitChar_inj_lt10 y hy y' hy' e2
  have hzz := digitChar_inj_lt10 z hz z' hz' e3
  have haa := digitChar_inj_lt10 a ha a' ha' e4
  have hbb := digitChar_inj_lt10 b hb b' hb' e5
  subst hxx hyy hzz haa hbb
  exact ⟨rfl, rfl⟩

/-- Claim C7 witness: the hypotheses hold at the code's own example
versions 2.3.0 and 1.3. -/
theorem c7_witness : verStr 2 3 0 = verStr 2 3 0 ∧ esStr 1 3 = esStr 1 3 :=
  c7_doc_anchor_injective 2 3 0 1 3 2 3 0 1 3
    (by decide) (by decide) (by decide) (by decide) (by decide)
    (by decide) (by decide) (by decide) (by decide) (by decide) rfl

/-- Claim C1: in every dry run in which all orchestration phases complete
(every external step succeeds, no issue labeled with the release version
is open, the release branches and the tag do not pre-exist), the run exits
0 and afterwards the head revisions of `master` and of the source branch
equal the baselines recorded before any mutation, and the annotated tag
`v<release-version>` no longer exists. -/
theorem c1_dry_run_restores_baselines
    (o : Oracle) (fl : Flags) (src rv : Str) (s0 : GitState) (mh vh pm ps : Nat)
    (hm : headOf s0.branches masterName = some mh)
    (hv : headOf s0.branches src = some vh)
    (hrbM : headOf s0.branches (release_branch masterName rv) = none)
    (hrbS : headOf s0.branches (release_branch src rv) = none)
    (htag : vTag rv ∉ s0.tags)
    (hsm : src ≠ masterName)
    (hdry : fl.dry_run = true)
    (hclean : o.mvn_clean_ok = true)
    (hpm : o.pull_master = some pm)
    (hps : o.pull_src = some ps)
    (hoi : o.open_issues = 0)
    (hb : o.build_ok = true)
    (ha : o.artifact_ok = true)
    (hc : o.checksum_ok = true) :
    ∃ res : RunResult, script_run o fl src rv s0 = some res
      ∧ res.exit_code = 0
      ∧ headOf res.state.branches masterName = some mh
      ∧ headOf res.state.branches src = some vh
      ∧ vTag rv ∉ res.state.tags := by
  have h4 : src ≠ release_branch masterName rv := by
    intro h
    rw [h, hrbM] at hv
    exact Option.noConfusion hv
  have h1s : masterName ≠ release_branch masterName rv :=
    masterName_ne_release_branch masterName rv
  have h2s : masterName ≠ release_branch src rv :=
    masterName_ne_release_branch src rv
  have h3s : src ≠ release_branch src rv := src_ne_release_branch src rv
  have hms : masterName ≠ src := Ne.symm hsm
  have hph := phase1_ok o src rv s0 mh vh pm ps hm hv hrbM hrbS hsm hclean hpm hps
  have hbt := bigTry_ok o fl src rv s0 pm ps hsm h4 htag hoi hb ha hc
  have hfin := finallyBlock_dry_ok s0 src rv pm ps mh vh hsm h4
  simp only [script_run, hph, hbt, hdry, hfin]
  refine ⟨_, rfl, rfl, ?_, ?_, ?_⟩
  · simp only [stateFinalDry, headOf_removeBranch_ne _ _ _ h2s,
      headOf_removeBranch_ne _ _ _ h1s, headOf_setHead_ne _ _ _ _ hms,
      headOf_setHead_self]
  · simp only [stateFinalDry, headOf_removeBranch_ne _ _ _ h3s,
      headOf_removeBranch_ne _ _ _ h4, headOf_setHead_self]
  · simp [stateFinalDry, List.mem_filter]

/-- Claim C1 witness: a concrete dry run over a two-branch repository. -/
theorem c1_witness :
    ∃ res : RunResult, script_run oracleOkX flagsDryX srcX rvX s0X = some res
      ∧ res.exit_code = 0
      ∧ headOf res.state.branches masterName = some 20
      ∧ headOf res.state.branches srcX = some 10
      ∧ vTag rvX ∉ res.state.tags :=
  c1_dry_run_restores_baselines oracleOkX flagsDryX srcX rvX s0X 20 10 21 11
    (by decide) (by decide) (by decide) (by decide) (by decide) (by decide)
    rfl rfl rfl rfl rfl rfl rfl rfl

/-- Claim C2, counterexample: the source-lineage release branch is left
over from an earlier attempt, so its creation fails.  The claim would have
the run reset `master` and the source branch to their baselines (20 and
10) and delete the created master-lineage release branch; instead the code
exits `-1` with `master` at the pulled revision 21 (mutated, not reset),
the source branch at 11, and the master-lineage release branch still in
place. -/
theorem c2_counterexample :
    headOf s0rbX.branches masterName = some 20
    ∧ headOf s0rbX.branches srcX = some 10
    ∧ (script_run oracleOkX flagsDryX srcX rvX s0rbX).map RunResult.exit_code
        = some (-1)
    ∧ (script_run oracleOkX flagsDryX srcX rvX s0rbX).map
        (fun r => headOf r.state.branches masterName) = some (some 21)
    ∧ (script_run oracleOkX flagsDryX srcX rvX s0rbX).map
        (fun r => headOf r.state.branches srcX) = some (some 11)
    ∧ (script_run oracleOkX flagsDryX srcX rvX s0rbX).map
        (fun r => (headOf r.state.branches (release_branch masterName rvX)).isSome)
        = some true
    ∧ (21 : Nat) ≠ 20 := by
  decide

/-- Claim C2 as amended: if creating either of the two release-lineage
branches fails, the script prints the log and exits `-1` immediately, with
no rollback and no cleanup.  Under `hm`, `hv` and `hclean` every earlier
step of the first `try` succeeds, so `hfail` says exactly that one of the
two `create_release_branch` calls raised — whether its rebase pull failed
or its `git checkout -b` refused an existing branch, on either lineage.
The final state is the state at the failure: no events (no later mutation
phase ran), `master` and the source branch hold either their baseline or
exactly what their pull gave them (never a reset), the tags are untouched,
any pre-existing release-lineage branch survives, and a freshly created
master-lineage branch survives at the pulled revision. -/
theorem c2_creation_failure_exits_without_rollback
    (o : Oracle) (fl : Flags) (src rv : Str) (s0 : GitState) (mh vh : Nat)
    (sE : GitState)
    (hm : headOf s0.branches masterName = some mh)
    (hv : headOf s0.branches src = some vh)
    (hsm : src ≠ masterName)
    (hclean : o.mvn_clean_ok = true)
    (hfail : phase1 o src rv s0 = .error sE) :
    script_run o fl src rv s0 = some ⟨-1, sE, []⟩
    ∧ (headOf sE.branches masterName = some mh
        ∨ headOf sE.branches masterName = o.pull_master)
    ∧ (headOf sE.branches src = some vh ∨ headOf sE.branches src = o.pull_src)
    ∧ sE.tags = s0.tags
    ∧ (∀ q, headOf s0.branches (release_branch masterName rv) = some q →
        headOf sE.branches (release_branch masterName rv) = some q)
    ∧ (∀ q, headOf s0.branches (release_branch src rv) = some q →
        headOf sE.branches (release_branch src rv) = some q)
    ∧ (headOf s0.branches (release_branch masterName rv) = none →
        headOf sE.branches (release_branch masterName rv) = none
        ∨ headOf sE.branches (release_branch masterName rv) = o.pull_master) := by
  have h1 : release_branch masterName rv ≠ masterName :=
    Ne.symm (masterName_ne_release_branch masterName rv)
  have h1s : masterName ≠ release_branch masterName rv :=
    masterName_ne_release_branch masterName rv
  have h2 : release_branch src rv ≠ masterName :=
    Ne.symm (masterName_ne_release_branch src rv)
  have h3 : release_branch src rv ≠ src := Ne.symm (src_ne_release_branch src rv)
  have h5s : release_branch src rv ≠ release_branch masterName rv :=
    Ne.symm (release_branch_master_ne src rv hsm)
  have hms : masterName ≠ src := Ne.symm hsm
  have hrun : script_run o fl src rv s0 = some ⟨-1, sE, []⟩ := by
    simp only [script_run, hfail]
  cases hpm : o.pull_master with
  | none =>
    have hph := phase1_fail_pull_master o src rv s0 mh vh hm hv hclean hpm
    rw [hph] at hfail
    injection hfail with hE
    subst hE
    exact ⟨hrun, Or.inl hm, Or.inl hv, rfl,
      fun q hq => hq, fun q hq => hq, fun h => Or.inl h⟩
  | some pm =>
    cases hq : headOf s0.branches (release_branch masterName rv) with
    | some q =>
      have hph := phase1_fail_first_exists o src rv s0 mh vh pm q hm hv hq
        hclean hpm
      rw [hph] at hfail
      injection hfail with hE
      subst hE
      refine ⟨hrun, Or.inr ?_, Or.inl ?_, rfl, ?_, ?_, ?_⟩
      · simp only [headOf_setHead_self]
      · simp only [headOf_setHead_ne _ _ _ _ hsm, hv]
      · intro q' hq'
        simp only [headOf_setHead_ne _ _ _ _ h1, hq]
        exact hq'
      · intro q' hq'
        simp only [headOf_setHead_ne _ _ _ _ h2, hq']
      · intro h
        exact Option.noConfusion h
    | none =>
      have h4 : src ≠ release_branch masterName rv := by
        intro h
        rw [h, hq] at hv
        exact Option.noConfusion hv
      have h4s : release_branch masterName rv ≠ src := Ne.symm h4
      cases hps : o.pull_src with
      | none =>
        have hph := phase1_fail_pull_src o src rv s0 mh vh pm hm hv hq hsm
          hclean hpm hps
        rw [hph] at hfail
        injection hfail with hE
        subst hE
        refine ⟨hrun, Or.inr ?_, Or.inl ?_, rfl, ?_, ?_, ?_⟩
        · simp only [headOf_cons_ne _ _ _ _ h1s, headOf_setHead_self]
        · simp only [headOf_cons_ne _ _ _ _ h4,
            headOf_setHead_ne _ _ _ _ hsm, hv]
        · intro q' hq'
          exact Option.noConfusion hq'
        · intro q' hq'
          simp only [headOf_cons_ne _ _ _ _ h5s,
            headOf_setHead_ne _ _ _ _ h2, hq']
        · intro _
          exact Or.inr (headOf_cons_self _ _ _)
      | some ps =>
        cases hq2 : headOf s0.branches (release_branch src rv) with
        | some q2 =>
          have hph := phase1_fail_second o src rv s0 mh vh pm ps q2 hm hv hq
            hq2 hsm hclean hpm hps
          rw [hph] at hfail
          injection hfail with hE
          subst hE
          refine ⟨hrun, Or.inr ?_, Or.inr ?_, rfl, ?_, ?_, ?_⟩
          · simp only [stateC2fail, headOf_setHead_ne _ _ _ _ hms,
              headOf_cons_ne _ _ _ _ h1s, headOf_setHead_self]
          · simp only [stateC2fail, headOf_setHead_self]
          · intro q' hq'
            exact Option.noConfusion hq'
          · intro q' hq'
            simp only [stateC2fail, headOf_setHead_ne _ _ _ _ h3,
              headOf_cons_ne _ _ _ _ h5s, headOf_setHead_ne _ _ _ _ h2, hq2]
            exact hq'
          · intro _
            refine Or.inr ?_
            simp only [stateC2fail, headOf_setHead_ne _ _ _ _ h4s,
              headOf_cons_self]
        | none =>
          have hph := phase1_ok o src rv s0 mh vh pm ps hm hv hq hq2 hsm
            hclean hpm hps
          rw [hph] at hfail
          exact Except.noConfusion hfail

/-- Claim C2 witness: the leftover-branch repository exercises the
second-creation failure; the run exits `-1` with `master` at the pulled
revision, the source branch at its pulled revision, the tag list
untouched, the leftover branch surviving, and the freshly created
master-lineage branch surviving at the pulled revision. -/
theorem c2_witness :
    script_run oracleOkX flagsDryX srcX rvX s0rbX = some ⟨-1, c2failX, []⟩
    ∧ (headOf c2failX.branches masterName = some 20
        ∨ headOf c2failX.branches masterName = oracleOkX.pull_master)
    ∧ (headOf c2failX.branches srcX = some 10
        ∨ headOf c2failX.branches srcX = oracleOkX.pull_src)
    ∧ c2failX.tags = s0rbX.tags
    ∧ (∀ q, headOf s0rbX.branches (release_branch masterName rvX) = some q →
        headOf c2failX.branches (release_branch masterName rvX) = some q)
    ∧ (∀ q, headOf s0rbX.branches (release_branch srcX rvX) = some q →
        headOf c2failX.branches (release_branch srcX rvX) = some q)
    ∧ (headOf s0rbX.branches (release_branch masterName rvX) = none →
        headOf c2failX.branches (release_branch masterName rvX) = none
        ∨ headOf c2failX.branches (release_branch masterName rvX)
            = oracleOkX.pull_master) :=
  c2_creation_failure_exits_without_rollback oracleOkX flagsDryX srcX rvX s0rbX
    20 10 c2failX (by decide) (by decide) (by decide) rfl rfl

/-- Claim C3, counterexample: with one open issue labeled with the release
version, the run does abort with a non-zero exit — but the version-bump
commit staging `pom.xml` and `README.md` (event index 2) precedes the gate
check (event index 3), and documentation mutation (`README` rewrite, index
1) precedes it too, contradicting "no commit touching README or pom
precedes the gate check" and "before any documentation mutation". -/
theorem c3_counterexample :
    (script_run oracleGateX flagsDryX srcX rvX s0X).map RunResult.events
      = some [Event.editPom, Event.editReadme, Event.commitFiles pending_files,
          Event.gateCheck]
    ∧ pending_files = ["pom.xml".data, "README.md".data]
    ∧ (script_run oracleGateX flagsDryX srcX rvX s0X).map
        (fun r => r.events[2]?) = some (some (Event.commitFiles pending_files))
    ∧ (script_run oracleGateX flagsDryX srcX rvX s0X).map
        (fun r => r.events[3]?) = some (some Event.gateCheck)
    ∧ (script_run oracleGateX flagsDryX srcX rvX s0X).map RunResult.exit_code
        = some 1 := by
  decide

/-- Claim C3 as amended: with at least one open issue labeled with the
release version, the orchestration aborts at the gate check before the
build is ever invoked and before the master-lineage documentation phase;
it exits non-zero, and the rollback restores `master` and the source
branch to their baselines and removes both release-lineage branches — but
the version-bump commit staging `pom.xml` and `README.md` precedes the
gate check. -/
theorem c3_gate_abort_before_build
    (o : Oracle) (fl : Flags) (src rv : Str) (s0 : GitState) (mh vh pm ps : Nat)
    (hm : headOf s0.branches masterName = some mh)
    (hv : headOf s0.branches src = some vh)
    (hrbM : headOf s0.branches (release_branch masterName rv) = none)
    (hrbS : headOf s0.branches (release_branch src rv) = none)
    (htag : vTag rv ∉ s0.tags)
    (hsm : src ≠ masterName)
    (hclean : o.mvn_clean_ok = true)
    (hpm : o.pull_master = some pm)
    (hps : o.pull_src = some ps)
    (hoi : 0 < o.open_issues) :
    ∃ res : RunResult, script_run o fl src rv s0 = some res
      ∧ res.exit_code = 1
      ∧ res.events = [Event.editPom, Event.editReadme,
          Event.commitFiles pending_files, Event.gateCheck]
      ∧ Event.buildInvoked ∉ res.events
      ∧ headOf res.state.branches masterName = some mh
      ∧ headOf res.state.branches src = some vh
      ∧ headOf res.state.branches (release_branch masterName rv) = none
      ∧ headOf res.state.branches (release_branch src rv) = none
      ∧ vTag rv ∉ res.state.tags := by
  have h4 : src ≠ release_branch masterName rv := by
    intro h
    rw [h, hrbM] at hv
    exact Option.noConfusion hv
  have h1s : masterName ≠ release_branch masterName rv :=
    masterName_ne_release_branch masterName rv
  have h2s : masterName ≠ release_branch src rv :=
    masterName_ne_release_branch src rv
  have h3s : src ≠ release_branch src rv := src_ne_release_branch src rv
  have h5 : release_branch masterName rv ≠ release_branch src rv :=
    release_branch_master_ne src rv hsm
  have hms : masterName ≠ src := Ne.symm hsm
  have hph := phase1_ok o src rv s0 mh vh pm ps hm hv hrbM hrbS hsm hclean hpm hps
  have hbt := bigTry_gate_fail o fl src rv (stateAfterPhase1 s0 src rv pm ps) hoi
  have hfin := finallyBlock_gate fl.dry_run s0 src rv pm ps mh vh hsm h4 htag
  simp only [script_run, hph, hbt, hfin]
  refine ⟨_, rfl, rfl, rfl, ?_, ?_, ?_, ?_, ?_, htag⟩
  · show Event.buildInvoked ∉ [Event.editPom, Event.editReadme,
      Event.commitFiles pending_files, Event.gateCheck]
    decide
  · simp only [stateFinalGate, headOf_removeBranch_ne _ _ _ h2s,
      headOf_removeBranch_ne _ _ _ h1s, headOf_setHead_ne _ _ _ _ hms,
      headOf_setHead_self]
  · simp only [stateFinalGate, headOf_removeBranch_ne _ _ _ h3s,
      headOf_removeBranch_ne _ _ _ h4, headOf_setHead_self]
  · simp only [stateFinalGate, headOf_removeBranch_ne _ _ _ h5,
      headOf_removeBranch_self]
  · simp only [stateFinalGate, headOf_removeBranch_self]

/-- Claim C3 witness: the amended behaviour at the concrete repository
with one open issue. -/
theorem c3_witness :
    ∃ res : RunResult, script_run oracleGateX flagsDryX srcX rvX s0X = some res
      ∧ res.exit_code = 1
      ∧ res.events = [Event.editPom, Event.editReadme,
          Event.commitFiles pending_files, Event.gateCheck]
      ∧ Event.buildInvoked ∉ res.events
      ∧ headOf res.state.branches masterName = some 20
      ∧ headOf res.state.branches srcX = some 10
      ∧ headOf res.state.branches (release_branch masterName rvX) = none
      ∧ headOf res.state.branches (release_branch srcX rvX) = none
      ∧ vTag rvX ∉ res.state.tags :=
  c3_gate_abort_before_build oracleGateX flagsDryX srcX rvX s0X 20 10 21 11
    (by decide) (by decide) (by decide) (by decide) (by decide) (by decide)
    rfl rfl rfl (by decide)

end BuildRelease
